import Mathlib

/-!
Verification of `src/python/gudhi/representations/kernel_methods.py`
(persistence-diagram kernel methods): a shallow embedding of the kernel
functions, the pairwise dispatcher and the four estimator classes, together
with theorems settling the specification claims.

Diagram points are pairs of reals, diagrams are lists of points.  The two
external diagram-distance collaborators (sliced-Wasserstein and
persistence-Fisher) stay abstract parameters of the dispatcher; the batched
distance matrix, the padding collaborator and the padding-stripping wrapper
are modelled from the specification (their code lives outside `src/`).
Python dictionary lookups `kwargs["k"]` are modelled in the `Except` monad:
an absent key is a `KeyError` carrying the key name.
-/

namespace GudhiKernels

/-- A persistence-diagram point `(birth, death)`. -/
abbrev Point : Type := ℝ × ℝ

/-- A persistence diagram: an ordered finite list of points. -/
abbrev Diagram : Type := List Point

/-- A per-point weight function. -/
abbrev Weight : Type := Point → ℝ

/-- A kernel-approximation object: its `transform` maps every point to a
feature vector of a fixed dimension `dim` (sklearn's `RBFSampler`-style
collaborator, kept abstract). -/
structure FeatureMap where
  dim : ℕ
  features : Point → Fin dim → ℝ

/-- Inner product of two feature vectors (`np.matmul(approx1, approx2.T)`
for one-dimensional operands). -/
noncomputable def featDot {d : ℕ} (u v : Fin d → ℝ) : ℝ :=
  (Finset.univ : Finset (Fin d)).sum (fun k => u k * v k)

/-- Squared coordinate-wise difference of two points. -/
noncomputable def sqDistP (p q : Point) : ℝ :=
  (p.1 - q.1) ^ 2 + (p.2 - q.2) ^ 2

/-- Euclidean distance between two points, as computed by
`sklearn.metrics.pairwise_distances` on single rows (spec section 6
collaborator contract). -/
noncomputable def euclidDist (p q : Point) : ℝ :=
  Real.sqrt (sqDistP p q)

/-- The function `persistence_weighted_gaussian_kernel(D1, D2, weight, kernel_approx, bandwidth)`.
Exact path: `np.sum(np.multiply(W, E))` with `W[i,j] = w1[i]*w2[j]` and
`E[i,j] = (1/(sqrt(2*pi)*bandwidth)) * exp(-square(dist(D1[i],D2[j]))/(2*bandwidth*bandwidth))`.
Approximate path: `(1/(sqrt(2*pi)*bandwidth)) * <sum_i w1[i]*phi(D1[i]), sum_j w2[j]*phi(D2[j])>`. -/
noncomputable def persistence_weighted_gaussian_kernel (D1 D2 : Diagram) (weight : Weight)
    (kernel_approx : Option FeatureMap) (bandwidth : ℝ) : ℝ :=
  match kernel_approx with
  | some ka =>
      (1 / (Real.sqrt (2 * Real.pi) * bandwidth)) *
        featDot (fun k => (D1.map (fun p => weight p * ka.features p k)).sum)
                (fun k => (D2.map (fun p => weight p * ka.features p k)).sum)
  | none =>
      (D1.map (fun p => (D2.map (fun q =>
        (weight p * weight q) *
          ((1 / (Real.sqrt (2 * Real.pi) * bandwidth)) *
            Real.exp (-(euclidDist p q) ^ 2 / (2 * bandwidth * bandwidth))))).sum)).sum

/-- The function `persistence_scale_space_kernel(D1, D2, kernel_approx, bandwidth)`:
concatenate each diagram with its coordinate-swapped copy
(`np.concatenate([D, D[:,[1,0]]], axis=0)`), weight `1 if x[1] >= x[0] else -1`,
and return half the weighted Gaussian kernel of the augmented diagrams. -/
noncomputable def persistence_scale_space_kernel (D1 D2 : Diagram)
    (kernel_approx : Option FeatureMap) (bandwidth : ℝ) : ℝ :=
  let DD1 := D1 ++ D1.map (fun p => (p.2, p.1))
  let DD2 := D2 ++ D2.map (fun p => (p.2, p.1))
  let weight_pss : Weight := fun x => if x.2 ≥ x.1 then 1 else -1
  0.5 * persistence_weighted_gaussian_kernel DD1 DD2 weight_pss kernel_approx bandwidth

/-- The common padded length of a batch: the maximum diagram size. -/
def maxLen (X : List Diagram) : ℕ :=
  (X.map List.length).foldr max 0

/-- The batch handed to the padding collaborator: `X` alone when `Y` is
omitted, the concatenation `X + Y` otherwise. -/
def batch (X : List Diagram) (Y : Option (List Diagram)) : List Diagram :=
  match Y with
  | none => X
  | some Y2 => X ++ Y2

/-- Modelled from the spec: the `Padding` collaborator
(`gudhi.representations.preprocessing.Padding`, not under `src/`) extends a
diagram to the common batch length `L` with `(0,0)` filler rows, carrying a
third validity column: `true` for genuine points, `false` for filler. -/
def padDiagram (L : ℕ) (D : Diagram) : List (Point × Bool) :=
  D.map (fun p => (p, true)) ++ List.replicate (L - D.length) (((0 : ℝ), (0 : ℝ)), false)

/-- Modelled from the spec: the `sklearn_wrapper` adapter
(`gudhi.representations.metrics.sklearn_wrapper`, not under `src/`)
reconstructs a raw diagram from a padded row block by keeping the rows whose
validity flag is set and dropping the flag. -/
def stripPad (rows : List (Point × Bool)) : Diagram :=
  (rows.filter (fun r => r.2)).map (fun r => r.1)

/-- The elementwise pairwise matrix: entry `(i,j)` is `f X[i] Y[j]`
(sklearn's `pairwise_kernels` with a callable metric, spec section 6). -/
def kmatrix {α β : Type} (f : α → β → ℝ) (X : List α) (Y : List β) : List (List ℝ) :=
  X.map (fun a => Y.map (fun b => f a b))

/-- Modelled from the spec: the batched diagram-distance collaborator
`pairwise_persistence_diagram_distances` (gudhi.representations.metrics, not
under `src/`): entry `(i,j)` is the scalar diagram distance between diagram
`i` of `X` and diagram `j` of `Y` (`Y` defaulting to `X` when omitted).  The
scalar distance itself stays an abstract parameter. -/
def pairwise_persistence_diagram_distances (dist : Diagram → Diagram → ℝ)
    (X : List Diagram) (Y : Option (List Diagram)) : List (List ℝ) :=
  kmatrix dist X (Y.getD X)

/-- Elementwise `np.exp(-M / b)` on a matrix. -/
noncomputable def expMatrix (M : List (List ℝ)) (b : ℝ) : List (List ℝ) :=
  M.map (fun row => row.map (fun d => Real.exp (-d / b)))

/-- Python dictionary lookup `kwargs[key]`: an absent key raises a
`KeyError` naming the key. -/
def lookupKey {α : Type} (key : String) : Option α → Except String α
  | some a => Except.ok a
  | none => Except.error key

/-- The metric argument of the dispatcher: one of the four recognized
strings, or a user-supplied two-diagram scalar kernel. -/
inductive Metric : Type where
  | sliced_wasserstein
  | persistence_fisher
  | persistence_scale_space
  | persistence_weighted_gaussian
  | custom (f : Diagram → Diagram → ℝ)

/-- The keyword-argument dictionary of the dispatcher: each recognized key
is present (`some`) or absent (`none`).  The value stored under
`kernel_approx` may itself be Python `None` (inner `none`). -/
structure Kwargs where
  num_directions : Option ℕ
  bandwidth : Option ℝ
  bandwidth_fisher : Option ℝ
  kernel_approx : Option (Option FeatureMap)
  weight : Option Weight

/-- The dispatcher `pairwise_persistence_diagram_kernels(X, Y, metric, **kwargs)`,
parameterized by the two abstract external scalar distances
(`sliced_wasserstein_distance` taking `num_directions`, and
`persistence_fisher_distance` taking `bandwidth` and `kernel_approx`).
The padded representation is built unconditionally, as in the source; the
`sliced_wasserstein` and `persistence_fisher` branches exponentiate the
external distance matrix, the remaining branches apply the scalar kernel
elementwise to stripped padded rows. -/
noncomputable def pairwise_persistence_diagram_kernels
    (swDist : ℕ → Diagram → Diagram → ℝ)
    (fisherDist : ℝ → Option FeatureMap → Diagram → Diagram → ℝ)
    (X : List Diagram) (Y : Option (List Diagram)) (metric : Metric) (kwargs : Kwargs) :
    Except String (List (List ℝ)) :=
  let Yd := Y.getD X
  let L := maxLen (batch X Y)
  let XX := X.map (padDiagram L)
  let YY := Yd.map (padDiagram L)
  match metric with
  | Metric.sliced_wasserstein => do
      let nd ← lookupKey "num_directions" kwargs.num_directions
      let b ← lookupKey "bandwidth" kwargs.bandwidth
      Except.ok (expMatrix (pairwise_persistence_diagram_distances (swDist nd) X Y) b)
  | Metric.persistence_fisher => do
      let ka ← lookupKey "kernel_approx" kwargs.kernel_approx
      let b ← lookupKey "bandwidth" kwargs.bandwidth
      let bf ← lookupKey "bandwidth_fisher" kwargs.bandwidth_fisher
      Except.ok (expMatrix (pairwise_persistence_diagram_distances (fisherDist b ka) X Y) bf)
  | Metric.persistence_scale_space =>
      Except.ok (kmatrix (fun r1 r2 =>
        persistence_scale_space_kernel (stripPad r1) (stripPad r2)
          (kwargs.kernel_approx.getD none) (kwargs.bandwidth.getD 1)) XX YY)
  | Metric.persistence_weighted_gaussian =>
      Except.ok (kmatrix (fun r1 r2 =>
        persistence_weighted_gaussian_kernel (stripPad r1) (stripPad r2)
          (kwargs.weight.getD (fun _ => 1)) (kwargs.kernel_approx.getD none)
          (kwargs.bandwidth.getD 1)) XX YY)
  | Metric.custom f =>
      Except.ok (kmatrix (fun r1 r2 => f (stripPad r1) (stripPad r2)) XX YY)

/-- The `SlicedWassersteinKernel` estimator state: constructor hyperparameters
plus the reference diagrams stored by `fit` (`none` before `fit`, modelling
the absent `diagrams_` attribute). -/
structure SlicedWassersteinKernel where
  num_directions : ℕ
  bandwidth : ℝ
  diagrams_ : Option (List Diagram)

/-- Method `SlicedWassersteinKernel.fit(X)`: store the diagrams. -/
def SlicedWassersteinKernel.fit (s : SlicedWassersteinKernel) (X : List Diagram) :
    SlicedWassersteinKernel :=
  ⟨s.num_directions, s.bandwidth, some X⟩

/-- Method `SlicedWassersteinKernel.transform(X)`: dispatch with
`metric="sliced_wasserstein", bandwidth, num_directions`; accessing the
missing `diagrams_` attribute before `fit` is an `AttributeError`. -/
noncomputable def SlicedWassersteinKernel.transform
    (swDist : ℕ → Diagram → Diagram → ℝ)
    (fisherDist : ℝ → Option FeatureMap → Diagram → Diagram → ℝ)
    (s : SlicedWassersteinKernel) (X : List Diagram) : Except String (List (List ℝ)) :=
  match s.diagrams_ with
  | none => Except.error "diagrams_"
  | some ref =>
      pairwise_persistence_diagram_kernels swDist fisherDist X (some ref)
        Metric.sliced_wasserstein ⟨some s.num_directions, some s.bandwidth, none, none, none⟩

/-- The `PersistenceWeightedGaussianKernel` estimator state. -/
structure PersistenceWeightedGaussianKernel where
  bandwidth : ℝ
  weight : Weight
  kernel_approx : Option FeatureMap
  diagrams_ : Option (List Diagram)

/-- Method `PersistenceWeightedGaussianKernel.fit(X)`: store the diagrams. -/
def PersistenceWeightedGaussianKernel.fit (s : PersistenceWeightedGaussianKernel)
    (X : List Diagram) : PersistenceWeightedGaussianKernel :=
  ⟨s.bandwidth, s.weight, s.kernel_approx, some X⟩

/-- Method `PersistenceWeightedGaussianKernel.transform(X)`: dispatch with
`metric="persistence_weighted_gaussian", bandwidth, weight, kernel_approx`. -/
noncomputable def PersistenceWeightedGaussianKernel.transform
    (swDist : ℕ → Diagram → Diagram → ℝ)
    (fisherDist : ℝ → Option FeatureMap → Diagram → Diagram → ℝ)
    (s : PersistenceWeightedGaussianKernel) (X : List Diagram) :
    Except String (List (List ℝ)) :=
  match s.diagrams_ with
  | none => Except.error "diagrams_"
  | some ref =>
      pairwise_persistence_diagram_kernels swDist fisherDist X (some ref)
        Metric.persistence_weighted_gaussian
        ⟨none, some s.bandwidth, none, some s.kernel_approx, some s.weight⟩

/-- The `PersistenceScaleSpaceKernel` estimator state. -/
structure PersistenceScaleSpaceKernel where
  bandwidth : ℝ
  kernel_approx : Option FeatureMap
  diagrams_ : Option (List Diagram)

/-- Method `PersistenceScaleSpaceKernel.fit(X)`: store the diagrams. -/
def PersistenceScaleSpaceKernel.fit (s : PersistenceScaleSpaceKernel)
    (X : List Diagram) : PersistenceScaleSpaceKernel :=
  ⟨s.bandwidth, s.kernel_approx, some X⟩

/-- Method `PersistenceScaleSpaceKernel.transform(X)`: dispatch with
`metric="persistence_scale_space", bandwidth, kernel_approx`. -/
noncomputable def PersistenceScaleSpaceKernel.transform
    (swDist : ℕ → Diagram → Diagram → ℝ)
    (fisherDist : ℝ → Option FeatureMap → Diagram → Diagram → ℝ)
    (s : PersistenceScaleSpaceKernel) (X : List Diagram) :
    Except String (List (List ℝ)) :=
  match s.diagrams_ with
  | none => Except.error "diagrams_"
  | some ref =>
      pairwise_persistence_diagram_kernels swDist fisherDist X (some ref)
        Metric.persistence_scale_space
        ⟨none, some s.bandwidth, none, some s.kernel_approx, none⟩

/-- The `PersistenceFisherKernel` estimator state. -/
structure PersistenceFisherKernel where
  bandwidth_fisher : ℝ
  bandwidth : ℝ
  kernel_approx : Option FeatureMap
  diagrams_ : Option (List Diagram)

/-- Method `PersistenceFisherKernel.fit(X)`: store the diagrams. -/
def PersistenceFisherKernel.fit (s : PersistenceFisherKernel)
    (X : List Diagram) : PersistenceFisherKernel :=
  ⟨s.bandwidth_fisher, s.bandwidth, s.kernel_approx, some X⟩

/-- Method `PersistenceFisherKernel.transform(X)`: dispatch with
`metric="persistence_fisher", bandwidth, bandwidth_fisher, kernel_approx`. -/
noncomputable def PersistenceFisherKernel.transform
    (swDist : ℕ → Diagram → Diagram → ℝ)
    (fisherDist : ℝ → Option FeatureMap → Diagram → Diagram → ℝ)
    (s : PersistenceFisherKernel) (X : List Diagram) :
    Except String (List (List ℝ)) :=
  match s.diagrams_ with
  | none => Except.error "diagrams_"
  | some ref =>
      pairwise_persistence_diagram_kernels swDist fisherDist X (some ref)
        Metric.persistence_fisher
        ⟨none, some s.bandwidth, some s.bandwidth_fisher, some s.kernel_approx, none⟩

/-- Entry `(i,j)` of a matrix given as a list of rows (out-of-range
defaults never matter in the theorems, which carry bounds). -/
def mEntry (M : List (List ℝ)) (i j : ℕ) : ℝ :=
  (M.getD i []).getD j 0

/-- The matrix of a successful dispatcher call (`[]` on failure). -/
def okD (e : Except String (List (List ℝ))) : List (List ℝ) :=
  match e with
  | Except.ok M => M
  | Except.error _ => []

/-- The per-pair scalar kernel value selected by each dispatcher branch,
with hyperparameters read from the keyword set (defaults are only reached
when the branch would not have failed on lookup). -/
noncomputable def metricScalar
    (swDist : ℕ → Diagram → Diagram → ℝ)
    (fisherDist : ℝ → Option FeatureMap → Diagram → Diagram → ℝ)
    (metric : Metric) (kwargs : Kwargs) : Diagram → Diagram → ℝ :=
  match metric with
  | Metric.sliced_wasserstein => fun D1 D2 =>
      Real.exp (-(swDist (kwargs.num_directions.getD 0) D1 D2) / kwargs.bandwidth.getD 1)
  | Metric.persistence_fisher => fun D1 D2 =>
      Real.exp (-(fisherDist (kwargs.bandwidth.getD 1) (kwargs.kernel_approx.getD none) D1 D2) /
        kwargs.bandwidth_fisher.getD 1)
  | Metric.persistence_scale_space => fun D1 D2 =>
      persistence_scale_space_kernel D1 D2 (kwargs.kernel_approx.getD none)
        (kwargs.bandwidth.getD 1)
  | Metric.persistence_weighted_gaussian => fun D1 D2 =>
      persistence_weighted_gaussian_kernel D1 D2 (kwargs.weight.getD (fun _ => 1))
        (kwargs.kernel_approx.getD none) (kwargs.bandwidth.getD 1)
  | Metric.custom f => f

/-- The mirror of a diagram, as the claim states it: swap each point's two
coordinates, preserving order. -/
def mirrorD (D : Diagram) : Diagram :=
  D.map (fun p => (p.2, p.1))

/-- The scale-space weight, as the claim states it: `+1` if `death ≥ birth`
else `-1`. -/
noncomputable def weight_pss : Weight :=
  fun p => if p.2 ≥ p.1 then 1 else -1

/-- The exact weighted-Gaussian value as the spec formula writes it:
`(1/(sqrt(2*pi)*bandwidth)) * sum_i sum_j w1[i]*w2[j]*exp(-dist(D1[i],D2[j])^2/(2*bandwidth^2))`
with `dist` the Euclidean point distance. -/
noncomputable def pwg_spec_formula (D1 D2 : Diagram) (weight : Weight) (bandwidth : ℝ) : ℝ :=
  (1 / (Real.sqrt (2 * Real.pi) * bandwidth)) *
    (D1.map (fun p => (D2.map (fun q =>
      weight p * weight q *
        Real.exp (-(euclidDist p q) ^ 2 / (2 * bandwidth ^ 2)))).sum)).sum

/-! Helper lemmas. -/

lemma getD_map_of_lt {α β : Type} (f : α → β) (l : List α) (i : ℕ) (h : i < l.length)
    (d : β) (dA : α) : (l.map f).getD i d = f (l.getD i dA) := by
  induction l generalizing i with
  | nil => exact absurd h (by simp)
  | cons a t ih =>
    cases i with
    | zero => rfl
    | succ n =>
      simp only [List.map_cons, List.getD_cons_succ]
      exact ih n (by simpa using h)

lemma mEntry_nil (i j : ℕ) : mEntry [] i j = 0 := by
  simp [mEntry]

lemma length_kmatrix {α β : Type} (f : α → β → ℝ) (X : List α) (Y : List β) :
    (kmatrix f X Y).length = X.length := by
  simp [kmatrix]

lemma row_length_kmatrix {α β : Type} (f : α → β → ℝ) (X : List α) (Y : List β)
    (row : List ℝ) (h : row ∈ kmatrix f X Y) : row.length = Y.length := by
  simp only [kmatrix, List.mem_map] at h
  obtain ⟨a, _, rfl⟩ := h
  simp

lemma mEntry_kmatrix {α β : Type} (f : α → β → ℝ) (X : List α) (Y : List β)
    (i j : ℕ) (hi : i < X.length) (hj : j < Y.length) (dA : α) (dB : β) :
    mEntry (kmatrix f X Y) i j = f (X.getD i dA) (Y.getD j dB) := by
  unfold mEntry kmatrix
  rw [getD_map_of_lt _ _ _ hi _ dA]
  exact getD_map_of_lt _ _ _ hj _ dB

lemma expMatrix_kmatrix {α β : Type} (dist : α → β → ℝ) (X : List α) (Y : List β) (b : ℝ) :
    expMatrix (kmatrix dist X Y) b =
      kmatrix (fun a c => Real.exp (-(dist a c) / b)) X Y := by
  simp [expMatrix, kmatrix, List.map_map, Function.comp]

lemma filter_map_true (D : Diagram) :
    (D.map (fun p => (p, true))).filter (fun r : Point × Bool => r.2) =
      D.map (fun p => (p, true)) := by
  induction D with
  | nil => rfl
  | cons p t ih => simp [List.filter_cons, ih]

lemma filter_replicate_false (n : ℕ) :
    (List.replicate n (((0 : ℝ), (0 : ℝ)), false)).filter (fun r : Point × Bool => r.2) =
      [] := by
  induction n with
  | zero => rfl
  | succ n ih => simp [List.replicate_succ, List.filter_cons, ih]

lemma stripPad_padDiagram (L : ℕ) (D : Diagram) : stripPad (padDiagram L D) = D := by
  unfold stripPad padDiagram
  rw [List.filter_append, filter_map_true, filter_replicate_false, List.append_nil,
    List.map_map]
  simp [Function.comp_def]

lemma sum_map_add' {α : Type} (l : List α) (f g : α → ℝ) :
    (l.map (fun x => f x + g x)).sum = (l.map f).sum + (l.map g).sum := by
  induction l with
  | nil => simp
  | cons a t ih =>
    simp only [List.map_cons, List.sum_cons, ih]
    ring

lemma sum_sum_comm {α β : Type} (l1 : List α) (l2 : List β) (f : α → β → ℝ) :
    (l1.map (fun a => (l2.map (fun b => f a b)).sum)).sum =
      (l2.map (fun b => (l1.map (fun a => f a b)).sum)).sum := by
  induction l1 with
  | nil => simp
  | cons a t ih =>
    simp only [List.map_cons, List.sum_cons, ih]
    exact (sum_map_add' l2 (fun b => f a b)
      (fun b => (t.map (fun a2 => f a2 b)).sum)).symm

lemma sqDistP_comm (p q : Point) : sqDistP p q = sqDistP q p := by
  unfold sqDistP
  ring

lemma euclidDist_comm (p q : Point) : euclidDist p q = euclidDist q p := by
  unfold euclidDist
  rw [sqDistP_comm]

lemma featDot_comm {d : ℕ} (u v : Fin d → ℝ) : featDot u v = featDot v u :=
  Finset.sum_congr rfl (fun _ _ => mul_comm _ _)

lemma pwg_comm (D1 D2 : Diagram) (w : Weight) (ka : Option FeatureMap) (b : ℝ) :
    persistence_weighted_gaussian_kernel D1 D2 w ka b =
      persistence_weighted_gaussian_kernel D2 D1 w ka b := by
  cases ka with
  | some fm =>
    simp only [persistence_weighted_gaussian_kernel]
    rw [featDot_comm]
  | none =>
    simp only [persistence_weighted_gaussian_kernel]
    refine Eq.trans (sum_sum_comm D1 D2 _) ?_
    refine congrArg List.sum (List.map_congr_left (fun q _ => ?_))
    refine congrArg List.sum (List.map_congr_left (fun p _ => ?_))
    rw [euclidDist_comm, mul_comm (w p) (w q)]

lemma pss_def (D1 D2 : Diagram) (ka : Option FeatureMap) (b : ℝ) :
    persistence_scale_space_kernel D1 D2 ka b =
      0.5 * persistence_weighted_gaussian_kernel (D1 ++ mirrorD D1) (D2 ++ mirrorD D2)
        weight_pss ka b := rfl

lemma pss_comm (D1 D2 : Diagram) (ka : Option FeatureMap) (b : ℝ) :
    persistence_scale_space_kernel D1 D2 ka b =
      persistence_scale_space_kernel D2 D1 ka b := by
  rw [pss_def, pss_def, pwg_comm]

/-! Reduction lemmas for the dispatcher branches. -/

lemma dispatch_sw_ok (swD : ℕ → Diagram → Diagram → ℝ)
    (fD : ℝ → Option FeatureMap → Diagram → Diagram → ℝ)
    (X : List Diagram) (Y : Option (List Diagram)) (nd : ℕ) (b : ℝ)
    (obf : Option ℝ) (oka : Option (Option FeatureMap)) (ow : Option Weight) :
    pairwise_persistence_diagram_kernels swD fD X Y Metric.sliced_wasserstein
      ⟨some nd, some b, obf, oka, ow⟩ =
      Except.ok (expMatrix (pairwise_persistence_diagram_distances (swD nd) X Y) b) := rfl

lemma dispatch_sw_err_nd (swD : ℕ → Diagram → Diagram → ℝ)
    (fD : ℝ → Option FeatureMap → Diagram → Diagram → ℝ)
    (X : List Diagram) (Y : Option (List Diagram)) (ob obf : Option ℝ)
    (oka : Option (Option FeatureMap)) (ow : Option Weight) :
    pairwise_persistence_diagram_kernels swD fD X Y Metric.sliced_wasserstein
      ⟨none, ob, obf, oka, ow⟩ = Except.error "num_directions" := rfl

lemma dispatch_sw_err_b (swD : ℕ → Diagram → Diagram → ℝ)
    (fD : ℝ → Option FeatureMap → Diagram → Diagram → ℝ)
    (X : List Diagram) (Y : Option (List Diagram)) (nd : ℕ) (obf : Option ℝ)
    (oka : Option (Option FeatureMap)) (ow : Option Weight) :
    pairwise_persistence_diagram_kernels swD fD X Y Metric.sliced_wasserstein
      ⟨some nd, none, obf, oka, ow⟩ = Except.error "bandwidth" := rfl

lemma dispatch_fisher_ok (swD : ℕ → Diagram → Diagram → ℝ)
    (fD : ℝ → Option FeatureMap → Diagram → Diagram → ℝ)
    (X : List Diagram) (Y : Option (List Diagram)) (ond : Option ℕ) (b bf : ℝ)
    (ka : Option FeatureMap) (ow : Option Weight) :
    pairwise_persistence_diagram_kernels swD fD X Y Metric.persistence_fisher
      ⟨ond, some b, some bf, some ka, ow⟩ =
      Except.ok (expMatrix (pairwise_persistence_diagram_distances (fD b ka) X Y) bf) := rfl

lemma dispatch_fisher_err_ka (swD : ℕ → Diagram → Diagram → ℝ)
    (fD : ℝ → Option FeatureMap → Diagram → Diagram → ℝ)
    (X : List Diagram) (Y : Option (List Diagram)) (ond : Option ℕ) (ob obf : Option ℝ)
    (ow : Option Weight) :
    pairwise_persistence_diagram_kernels swD fD X Y Metric.persistence_fisher
      ⟨ond, ob, obf, none, ow⟩ = Except.error "kernel_approx" := rfl

lemma dispatch_fisher_err_b (swD : ℕ → Diagram → Diagram → ℝ)
    (fD : ℝ → Option FeatureMap → Diagram → Diagram → ℝ)
    (X : List Diagram) (Y : Option (List Diagram)) (ond : Option ℕ) (obf : Option ℝ)
    (ka : Option FeatureMap) (ow : Option Weight) :
    pairwise_persistence_diagram_kernels swD fD X Y Metric.persistence_fisher
      ⟨ond, none, obf, some ka, ow⟩ = Except.error "bandwidth" := rfl

lemma dispatch_fisher_err_bf (swD : ℕ → Diagram → Diagram → ℝ)
    (fD : ℝ → Option FeatureMap → Diagram → Diagram → ℝ)
    (X : List Diagram) (Y : Option (List Diagram)) (ond : Option ℕ) (b : ℝ)
    (ka : Option FeatureMap) (ow : Option Weight) :
    pairwise_persistence_diagram_kernels swD fD X Y Metric.persistence_fisher
      ⟨ond, some b, none, some ka, ow⟩ = Except.error "bandwidth_fisher" := rfl

lemma dispatch_pss (swD : ℕ → Diagram → Diagram → ℝ)
    (fD : ℝ → Option FeatureMap → Diagram → Diagram → ℝ)
    (X : List Diagram) (Y : Option (List Diagram)) (kwargs : Kwargs) :
    pairwise_persistence_diagram_kernels swD fD X Y Metric.persistence_scale_space kwargs =
      Except.ok (kmatrix (fun r1 r2 =>
        persistence_scale_space_kernel (stripPad r1) (stripPad r2)
          (kwargs.kernel_approx.getD none) (kwargs.bandwidth.getD 1))
        (X.map (padDiagram (maxLen (batch X Y))))
        ((Y.getD X).map (padDiagram (maxLen (batch X Y))))) := rfl

lemma dispatch_pwg (swD : ℕ → Diagram → Diagram → ℝ)
    (fD : ℝ → Option FeatureMap → Diagram → Diagram → ℝ)
    (X : List Diagram) (Y : Option (List Diagram)) (kwargs : Kwargs) :
    pairwise_persistence_diagram_kernels swD fD X Y Metric.persistence_weighted_gaussian
      kwargs =
      Except.ok (kmatrix (fun r1 r2 =>
        persistence_weighted_gaussian_kernel (stripPad r1) (stripPad r2)
          (kwargs.weight.getD (fun _ => 1)) (kwargs.kernel_approx.getD none)
          (kwargs.bandwidth.getD 1))
        (X.map (padDiagram (maxLen (batch X Y))))
        ((Y.getD X).map (padDiagram (maxLen (batch X Y))))) := rfl

lemma dispatch_custom (swD : ℕ → Diagram → Diagram → ℝ)
    (fD : ℝ → Option FeatureMap → Diagram → Diagram → ℝ)
    (X : List Diagram) (Y : Option (List Diagram)) (f : Diagram → Diagram → ℝ)
    (kwargs : Kwargs) :
    pairwise_persistence_diagram_kernels swD fD X Y (Metric.custom f) kwargs =
      Except.ok (kmatrix (fun r1 r2 => f (stripPad r1) (stripPad r2))
        (X.map (padDiagram (maxLen (batch X Y))))
        ((Y.getD X).map (padDiagram (maxLen (batch X Y))))) := rfl

/-! Claim theorems. -/

/-- C2: for every diagram `D2`, weight function and bandwidth, with no
approximation, the persistence weighted Gaussian kernel applied to the
empty diagram as first argument is `0` (empty sums), with no error. -/
theorem pwg_empty_first_is_zero (D2 : Diagram) (w : Weight) (b : ℝ) :
    persistence_weighted_gaussian_kernel [] D2 w none b = 0 := rfl

/-- C3: on non-empty diagrams, positive bandwidth and no approximation, the
persistence weighted Gaussian kernel equals the spec's closed formula
`(1/(sqrt(2*pi)*bandwidth)) * sum_i sum_j w1[i]*w2[j]*exp(-dist^2/(2*bandwidth^2))`
with `dist` the Euclidean point distance. -/
theorem pwg_exact_formula (D1 D2 : Diagram) (w : Weight) (b : ℝ)
    (h1 : D1 ≠ []) (h2 : D2 ≠ []) (hb : 0 < b) :
    persistence_weighted_gaussian_kernel D1 D2 w none b =
      pwg_spec_formula D1 D2 w b := by
  simp only [persistence_weighted_gaussian_kernel, pwg_spec_formula]
  have hbb : ∀ p q : Point,
      (w p * w q) *
        ((1 / (Real.sqrt (2 * Real.pi) * b)) *
          Real.exp (-(euclidDist p q) ^ 2 / (2 * b * b))) =
      (1 / (Real.sqrt (2 * Real.pi) * b)) *
        (w p * w q * Real.exp (-(euclidDist p q) ^ 2 / (2 * b ^ 2))) := by
    intro p q
    have : 2 * b * b = 2 * b ^ 2 := by ring
    rw [this]
    ring
  simp only [hbb]
  have hinner : ∀ p : Point,
      (List.map (fun q => 1 / (Real.sqrt (2 * Real.pi) * b) *
        (w p * w q * Real.exp (-euclidDist p q ^ 2 / (2 * b ^ 2)))) D2).sum =
      1 / (Real.sqrt (2 * Real.pi) * b) *
        (List.map (fun q => w p * w q * Real.exp (-euclidDist p q ^ 2 / (2 * b ^ 2))) D2).sum :=
    fun p => List.sum_map_mul_left D2 _ _
  simp only [hinner]
  exact List.sum_map_mul_left D1 _ _

/-- Witness for C3 at single-point diagrams with constant weight and unit
bandwidth. -/
theorem pwg_exact_formula_witness :
    persistence_weighted_gaussian_kernel [((0 : ℝ), 1)] [((0 : ℝ), 1)] (fun _ => 1) none 1 =
      pwg_spec_formula [((0 : ℝ), 1)] [((0 : ℝ), 1)] (fun _ => 1) 1 :=
  pwg_exact_formula _ _ _ _ (List.cons_ne_nil _ _) (List.cons_ne_nil _ _) one_pos

/-- C4: the persistence scale space kernel is half the weighted Gaussian
kernel of the mirror-augmented diagrams (originals first, mirrors after)
under the weight `+1` if `death ≥ birth` else `-1`, and a point exactly on
the diagonal gets weight `+1`. -/
theorem pss_is_half_pwg_on_augmented (D1 D2 : Diagram) (ka : Option FeatureMap) (b : ℝ) :
    persistence_scale_space_kernel D1 D2 ka b =
      0.5 * persistence_weighted_gaussian_kernel (D1 ++ mirrorD D1) (D2 ++ mirrorD D2)
        weight_pss ka b ∧
    (∀ a : ℝ, weight_pss (a, a) = 1) := by
  refine ⟨pss_def D1 D2 ka b, fun a => ?_⟩
  simp [weight_pss]

/-- C7: both point-convolution kernels are symmetric in their two diagram
arguments, for every weight function, approximation and bandwidth. -/
theorem kernels_symmetric (D1 D2 : Diagram) (w : Weight) (ka : Option FeatureMap) (b : ℝ) :
    persistence_weighted_gaussian_kernel D1 D2 w ka b =
      persistence_weighted_gaussian_kernel D2 D1 w ka b ∧
    persistence_scale_space_kernel D1 D2 ka b =
      persistence_scale_space_kernel D2 D1 ka b :=
  ⟨pwg_comm D1 D2 w ka b, pss_comm D1 D2 ka b⟩

/-- C6: in the `sliced_wasserstein` and `persistence_fisher` branches, a
required hyperparameter key absent from the supplied parameters makes the
dispatcher fail immediately with a key-lookup error naming that parameter
(the lookups happen in source order, other keys arbitrary). -/
theorem missing_key_errors (swD : ℕ → Diagram → Diagram → ℝ)
    (fD : ℝ → Option FeatureMap → Diagram → Diagram → ℝ)
    (X : List Diagram) (Y : Option (List Diagram))
    (ond : Option ℕ) (ob obf : Option ℝ) (oka : Option (Option FeatureMap))
    (ow : Option Weight) (nd : ℕ) (b : ℝ) (ka : Option FeatureMap) :
    pairwise_persistence_diagram_kernels swD fD X Y Metric.sliced_wasserstein
      ⟨none, ob, obf, oka, ow⟩ = Except.error "num_directions" ∧
    pairwise_persistence_diagram_kernels swD fD X Y Metric.sliced_wasserstein
      ⟨some nd, none, obf, oka, ow⟩ = Except.error "bandwidth" ∧
    pairwise_persistence_diagram_kernels swD fD X Y Metric.persistence_fisher
      ⟨ond, none, obf, some ka, ow⟩ = Except.error "bandwidth" ∧
    pairwise_persistence_diagram_kernels swD fD X Y Metric.persistence_fisher
      ⟨ond, some b, none, some ka, ow⟩ = Except.error "bandwidth_fisher" :=
  ⟨rfl, rfl, rfl, rfl⟩

/-- C10: the `persistence_fisher` branch also indexes the key
`kernel_approx` directly, so a parameter set holding both bandwidth keys
but no `kernel_approx` key fails with a key-lookup error naming it. -/
theorem fisher_branch_requires_kernel_approx (swD : ℕ → Diagram → Diagram → ℝ)
    (fD : ℝ → Option FeatureMap → Diagram → Diagram → ℝ)
    (X : List Diagram) (Y : Option (List Diagram)) (ond : Option ℕ) (b bf : ℝ)
    (ow : Option Weight) :
    pairwise_persistence_diagram_kernels swD fD X Y Metric.persistence_fisher
      ⟨ond, some b, some bf, none, ow⟩ = Except.error "kernel_approx" := rfl

/-- C1 (code evaluation at the failing input): with a probe
persistence-Fisher distance that returns the bandwidth it receives, the
dispatcher called with `bandwidth = 2` and `bandwidth_fisher = 3` returns
`exp(-2/3)`: the value under the key `bandwidth` is the one handed to the
distance computation and `bandwidth_fisher` is the exponentiation divisor —
the reverse of the documented roles, and the two assignments produce
different values since `exp(-2/3) ≠ exp(-3/2)`. -/
theorem fisher_bandwidths_swapped :
    pairwise_persistence_diagram_kernels (fun _ _ _ => 0) (fun bw _ _ _ => bw)
      [[((0 : ℝ), 1)]] none Metric.persistence_fisher
      ⟨none, some 2, some 3, some none, none⟩ =
      Except.ok [[Real.exp (-(2 : ℝ) / 3)]] ∧
    Real.exp (-(2 : ℝ) / 3) ≠ Real.exp (-(3 : ℝ) / 2) := by
  refine ⟨rfl, ?_⟩
  simp only [ne_eq, Real.exp_eq_exp]
  norm_num

/-- C8: for each of the four built-in metric identifiers, the self-kernel
matrix (second collection omitted) is symmetric, the external scalar
distances being symmetric (spec-modelled collaborator property). -/
theorem self_kernel_matrix_symmetric
    (swD : ℕ → Diagram → Diagram → ℝ)
    (fD : ℝ → Option FeatureMap → Diagram → Diagram → ℝ)
    (X : List Diagram) (metric : Metric) (kwargs : Kwargs)
    (hm : metric = Metric.sliced_wasserstein ∨ metric = Metric.persistence_fisher ∨
      metric = Metric.persistence_scale_space ∨
      metric = Metric.persistence_weighted_gaussian)
    (hsw : ∀ n D1 D2, swD n D1 D2 = swD n D2 D1)
    (hfd : ∀ b ka D1 D2, fD b ka D1 D2 = fD b ka D2 D1)
    (i j : ℕ) (hi : i < X.length) (hj : j < X.length) :
    mEntry (okD (pairwise_persistence_diagram_kernels swD fD X none metric kwargs)) i j =
      mEntry (okD (pairwise_persistence_diagram_kernels swD fD X none metric kwargs)) j i := by
  obtain ⟨ond, ob, obf, oka, ow⟩ := kwargs
  rcases hm with rfl | rfl | rfl | rfl
  · cases ond with
    | none => rw [dispatch_sw_err_nd]; simp [okD, mEntry_nil]
    | some nd =>
      cases ob with
      | none => rw [dispatch_sw_err_b]; simp [okD, mEntry_nil]
      | some b =>
        rw [dispatch_sw_ok]
        simp only [okD, pairwise_persistence_diagram_distances, Option.getD_none]
        rw [expMatrix_kmatrix,
          mEntry_kmatrix _ _ _ _ _ hi hj [] [], mEntry_kmatrix _ _ _ _ _ hj hi [] []]
        rw [hsw]
  · cases oka with
    | none => rw [dispatch_fisher_err_ka]; simp [okD, mEntry_nil]
    | some ka =>
      cases ob with
      | none => rw [dispatch_fisher_err_b]; simp [okD, mEntry_nil]
      | some b =>
        cases obf with
        | none => rw [dispatch_fisher_err_bf]; simp [okD, mEntry_nil]
        | some bf =>
          rw [dispatch_fisher_ok]
          simp only [okD, pairwise_persistence_diagram_distances, Option.getD_none]
          rw [expMatrix_kmatrix,
            mEntry_kmatrix _ _ _ _ _ hi hj [] [], mEntry_kmatrix _ _ _ _ _ hj hi [] []]
          rw [hfd]
  · rw [dispatch_pss]
    simp only [okD, Option.getD_none]
    rw [mEntry_kmatrix _ _ _ _ _ (by simpa using hi) (by simpa using hj) [] [],
      mEntry_kmatrix _ _ _ _ _ (by simpa using hj) (by simpa using hi) [] []]
    exact pss_comm _ _ _ _
  · rw [dispatch_pwg]
    simp only [okD, Option.getD_none]
    rw [mEntry_kmatrix _ _ _ _ _ (by simpa using hi) (by simpa using hj) [] [],
      mEntry_kmatrix _ _ _ _ _ (by simpa using hj) (by simpa using hi) [] []]
    exact pwg_comm _ _ _ _ _

/-- Witness for C8: a two-diagram self-kernel with the sliced-Wasserstein
metric and a constant probe distance. -/
theorem self_kernel_matrix_symmetric_witness :
    mEntry (okD (pairwise_persistence_diagram_kernels (fun _ _ _ => (0 : ℝ))
      (fun _ _ _ _ => (0 : ℝ)) [[], [((0 : ℝ), 1)]] none Metric.sliced_wasserstein
      ⟨some 1, some 1, none, none, none⟩)) 0 1 =
    mEntry (okD (pairwise_persistence_diagram_kernels (fun _ _ _ => (0 : ℝ))
      (fun _ _ _ _ => (0 : ℝ)) [[], [((0 : ℝ), 1)]] none Metric.sliced_wasserstein
      ⟨some 1, some 1, none, none, none⟩)) 1 0 :=
  self_kernel_matrix_symmetric (fun _ _ _ => (0 : ℝ)) (fun _ _ _ _ => (0 : ℝ))
    [[], [((0 : ℝ), 1)]] Metric.sliced_wasserstein ⟨some 1, some 1, none, none, none⟩
    (Or.inl rfl) (fun _ _ _ => rfl) (fun _ _ _ _ => rfl) 0 1 (by decide) (by decide)

/-- C9: for the two exponentiated-distance branches, when the relevant
distance entry is non-negative and the exponentiation divisor is positive,
the matrix entry lies in `(0, 1]` and equals `1` exactly when the distance
is `0`. -/
theorem exp_kernel_entries_unit_interval
    (swD : ℕ → Diagram → Diagram → ℝ)
    (fD : ℝ → Option FeatureMap → Diagram → Diagram → ℝ)
    (X : List Diagram) (Y : Option (List Diagram)) (i j : ℕ)
    (hi : i < X.length) (hj : j < (Y.getD X).length) :
    (∀ (nd : ℕ) (b : ℝ) (obf : Option ℝ) (oka : Option (Option FeatureMap))
       (ow : Option Weight),
      0 < b → 0 ≤ swD nd (X.getD i []) ((Y.getD X).getD j []) →
      0 < mEntry (okD (pairwise_persistence_diagram_kernels swD fD X Y
            Metric.sliced_wasserstein ⟨some nd, some b, obf, oka, ow⟩)) i j ∧
      mEntry (okD (pairwise_persistence_diagram_kernels swD fD X Y
            Metric.sliced_wasserstein ⟨some nd, some b, obf, oka, ow⟩)) i j ≤ 1 ∧
      (mEntry (okD (pairwise_persistence_diagram_kernels swD fD X Y
            Metric.sliced_wasserstein ⟨some nd, some b, obf, oka, ow⟩)) i j = 1 ↔
        swD nd (X.getD i []) ((Y.getD X).getD j []) = 0)) ∧
    (∀ (ond : Option ℕ) (b bf : ℝ) (ka : Option FeatureMap) (ow : Option Weight),
      0 < bf → 0 ≤ fD b ka (X.getD i []) ((Y.getD X).getD j []) →
      0 < mEntry (okD (pairwise_persistence_diagram_kernels swD fD X Y
            Metric.persistence_fisher ⟨ond, some b, some bf, some ka, ow⟩)) i j ∧
      mEntry (okD (pairwise_persistence_diagram_kernels swD fD X Y
            Metric.persistence_fisher ⟨ond, some b, some bf, some ka, ow⟩)) i j ≤ 1 ∧
      (mEntry (okD (pairwise_persistence_diagram_kernels swD fD X Y
            Metric.persistence_fisher ⟨ond, some b, some bf, some ka, ow⟩)) i j = 1 ↔
        fD b ka (X.getD i []) ((Y.getD X).getD j []) = 0)) := by
  constructor
  · intro nd b obf oka ow hb hd
    rw [dispatch_sw_ok]
    simp only [okD, pairwise_persistence_diagram_distances]
    rw [expMatrix_kmatrix, mEntry_kmatrix _ _ _ _ _ hi hj [] []]
    refine ⟨Real.exp_pos _, ?_, ?_⟩
    · refine Real.exp_le_one_iff.mpr ?_
      rw [neg_div]
      exact neg_nonpos.mpr (div_nonneg hd hb.le)
    · rw [Real.exp_eq_one_iff, neg_div, neg_eq_zero, div_eq_zero_iff,
        or_iff_left hb.ne']
  · intro ond b bf ka ow hbf hd
    rw [dispatch_fisher_ok]
    simp only [okD, pairwise_persistence_diagram_distances]
    rw [expMatrix_kmatrix, mEntry_kmatrix _ _ _ _ _ hi hj [] []]
    refine ⟨Real.exp_pos _, ?_, ?_⟩
    · refine Real.exp_le_one_iff.mpr ?_
      rw [neg_div]
      exact neg_nonpos.mpr (div_nonneg hd hbf.le)
    · rw [Real.exp_eq_one_iff, neg_div, neg_eq_zero, div_eq_zero_iff,
        or_iff_left hbf.ne']

/-- Witness for C9: a one-diagram collection, zero probe distance, unit
bandwidth — the entry is positive. -/
theorem exp_kernel_entries_unit_interval_witness :
    0 < mEntry (okD (pairwise_persistence_diagram_kernels (fun _ _ _ => (0 : ℝ))
      (fun _ _ _ _ => (0 : ℝ)) [[((0 : ℝ), 1)]] none Metric.sliced_wasserstein
      ⟨some 2, some 1, none, none, none⟩)) 0 0 :=
  ((exp_kernel_entries_unit_interval (fun _ _ _ => 0) (fun _ _ _ _ => 0)
    [[((0 : ℝ), 1)]] none 0 0 (by decide) (by decide)).1 2 1 none none none
    one_pos (le_refl 0)).1

/-- C5: every successful dispatcher call returns a matrix with one row per
diagram of the first collection and one column per diagram of the second
(the first again when the second is omitted), entry `(i,j)` being the
selected kernel value between diagram `i` and diagram `j`; consequently
each estimator variant's `transform` after `fit` returns a
`|query| × |reference|` matrix. -/
theorem kernel_matrix_shape_and_entries :
    (∀ (swD : ℕ → Diagram → Diagram → ℝ)
       (fD : ℝ → Option FeatureMap → Diagram → Diagram → ℝ)
       (X : List Diagram) (Y : Option (List Diagram)) (metric : Metric)
       (kwargs : Kwargs) (M : List (List ℝ)),
       pairwise_persistence_diagram_kernels swD fD X Y metric kwargs = Except.ok M →
         M.length = X.length ∧
         (∀ row ∈ M, row.length = (Y.getD X).length) ∧
         (∀ i j : ℕ, i < X.length → j < (Y.getD X).length →
            mEntry M i j =
              metricScalar swD fD metric kwargs (X.getD i []) ((Y.getD X).getD j []))) ∧
    (∀ swD fD (s : SlicedWassersteinKernel) (ref query : List Diagram),
       ∃ M, SlicedWassersteinKernel.transform swD fD (s.fit ref) query = Except.ok M ∧
         M.length = query.length ∧ ∀ row ∈ M, row.length = ref.length) ∧
    (∀ swD fD (s : PersistenceWeightedGaussianKernel) (ref query : List Diagram),
       ∃ M, PersistenceWeightedGaussianKernel.transform swD fD (s.fit ref) query =
           Except.ok M ∧
         M.length = query.length ∧ ∀ row ∈ M, row.length = ref.length) ∧
    (∀ swD fD (s : PersistenceScaleSpaceKernel) (ref query : List Diagram),
       ∃ M, PersistenceScaleSpaceKernel.transform swD fD (s.fit ref) query =
           Except.ok M ∧
         M.length = query.length ∧ ∀ row ∈ M, row.length = ref.length) ∧
    (∀ swD fD (s : PersistenceFisherKernel) (ref query : List Diagram),
       ∃ M, PersistenceFisherKernel.transform swD fD (s.fit ref) query = Except.ok M ∧
         M.length = query.length ∧ ∀ row ∈ M, row.length = ref.length) := by
  refine ⟨?_, ?_, ?_, ?_, ?_⟩
  · intro swD fD X Y metric kwargs M h
    obtain ⟨ond, ob, obf, oka, ow⟩ := kwargs
    cases metric with
    | sliced_wasserstein =>
      cases ond with
      | none => rw [dispatch_sw_err_nd] at h; cases h
      | some nd =>
        cases ob with
        | none => rw [dispatch_sw_err_b] at h; cases h
        | some b =>
          rw [dispatch_sw_ok] at h
          injection h with h
          subst h
          refine ⟨?_, ?_, ?_⟩
          · simp [expMatrix, pairwise_persistence_diagram_distances, kmatrix]
          · intro row hrow
            rw [pairwise_persistence_diagram_distances, expMatrix_kmatrix] at hrow
            exact row_length_kmatrix _ _ _ _ hrow
          · intro i j hi hj
            rw [pairwise_persistence_diagram_distances, expMatrix_kmatrix,
              mEntry_kmatrix _ _ _ _ _ hi hj [] []]
            simp [metricScalar]
    | persistence_fisher =>
      cases oka with
      | none => rw [dispatch_fisher_err_ka] at h; cases h
      | some ka =>
        cases ob with
        | none => rw [dispatch_fisher_err_b] at h; cases h
        | some b =>
          cases obf with
          | none => rw [dispatch_fisher_err_bf] at h; cases h
          | some bf =>
            rw [dispatch_fisher_ok] at h
            injection h with h
            subst h
            refine ⟨?_, ?_, ?_⟩
            · simp [expMatrix, pairwise_persistence_diagram_distances, kmatrix]
            · intro row hrow
              rw [pairwise_persistence_diagram_distances, expMatrix_kmatrix] at hrow
              exact row_length_kmatrix _ _ _ _ hrow
            · intro i j hi hj
              rw [pairwise_persistence_diagram_distances, expMatrix_kmatrix,
                mEntry_kmatrix _ _ _ _ _ hi hj [] []]
              simp [metricScalar]
    | persistence_scale_space =>
      rw [dispatch_pss] at h
      injection h with h
      subst h
      refine ⟨by simp [kmatrix], ?_, ?_⟩
      · intro row hrow
        have := row_length_kmatrix _ _ _ _ hrow
        simpa using this
      · intro i j hi hj
        rw [mEntry_kmatrix _ _ _ _ _ (by simpa using hi) (by simpa using hj) [] [],
          getD_map_of_lt _ _ _ hi _ [], getD_map_of_lt _ _ _ hj _ [],
          stripPad_padDiagram, stripPad_padDiagram]
        simp [metricScalar]
    | persistence_weighted_gaussian =>
      rw [dispatch_pwg] at h
      injection h with h
      subst h
      refine ⟨by simp [kmatrix], ?_, ?_⟩
      · intro row hrow
        have := row_length_kmatrix _ _ _ _ hrow
        simpa using this
      · intro i j hi hj
        rw [mEntry_kmatrix _ _ _ _ _ (by simpa using hi) (by simpa using hj) [] [],
          getD_map_of_lt _ _ _ hi _ [], getD_map_of_lt _ _ _ hj _ [],
          stripPad_padDiagram, stripPad_padDiagram]
        simp [metricScalar]
    | custom f =>
      rw [dispatch_custom] at h
      injection h with h
      subst h
      refine ⟨by simp [kmatrix], ?_, ?_⟩
      · intro row hrow
        have := row_length_kmatrix _ _ _ _ hrow
        simpa using this
      · intro i j hi hj
        rw [mEntry_kmatrix _ _ _ _ _ (by simpa using hi) (by simpa using hj) [] [],
          getD_map_of_lt _ _ _ hi _ [], getD_map_of_lt _ _ _ hj _ [],
          stripPad_padDiagram, stripPad_padDiagram]
        simp [metricScalar]
  · intro swD fD s ref query
    refine ⟨_, rfl, ?_, ?_⟩
    · simp [expMatrix, pairwise_persistence_diagram_distances, kmatrix]
    · intro row hrow
      rw [pairwise_persistence_diagram_distances, expMatrix_kmatrix] at hrow
      have := row_length_kmatrix _ _ _ _ hrow
      simpa using this
  · intro swD fD s ref query
    refine ⟨_, rfl, ?_, ?_⟩
    · simp [kmatrix]
    · intro row hrow
      have := row_length_kmatrix _ _ _ _ hrow
      simpa using this
  · intro swD fD s ref query
    refine ⟨_, rfl, ?_, ?_⟩
    · simp [kmatrix]
    · intro row hrow
      have := row_length_kmatrix _ _ _ _ hrow
      simpa using this
  · intro swD fD s ref query
    refine ⟨_, rfl, ?_, ?_⟩
    · simp [expMatrix, pairwise_persistence_diagram_distances, kmatrix]
    · intro row hrow
      rw [pairwise_persistence_diagram_distances, expMatrix_kmatrix] at hrow
      have := row_length_kmatrix _ _ _ _ hrow
      simpa using this

/-- Witness for C5: a one-diagram collection under a custom zero kernel
produces the 1×1 matrix `[[0]]`. -/
theorem kernel_matrix_shape_and_entries_witness :
    ([[(0 : ℝ)]] : List (List ℝ)).length = 1 :=
  (kernel_matrix_shape_and_entries.1 (fun _ _ _ => 0) (fun _ _ _ _ => 0) [[]] none
    (Metric.custom (fun _ _ => 0)) ⟨none, none, none, none, none⟩ [[0]] rfl).1

end GudhiKernels
